import Mathlib

/-!
Shallow embedding of the k8s-http-monitor core: the endpoint extractor and
namespace filter of `pkg/discovery`, and the status classification, key
construction and status-table updates of `pkg/monitoring/monitor.go`.
Machine-level concerns (the Kubernetes client, real HTTP, goroutine
scheduling) are abstracted: each per-check HTTP outcome is an explicit
input, and the concurrent status-table writes are modelled as the sequence
of mutex-serialized updates they perform.
-/

namespace HttpMonitor

/-- One `(key, value)` map as Go exposes it: an association list with a
lookup returning `Option`, mirroring `v, ok := m[k]`. -/
def mapLookup (k : String) : List (String × α) → Option α
  | [] => none
  | (k', v) :: rest => if k' == k then some v else mapLookup k rest

/-- Go map assignment `m[k] = v`: overwrite the binding if present,
append it otherwise. -/
def mapInsert (k : String) (v : α) : List (String × α) → List (String × α)
  | [] => [(k, v)]
  | (k', v') :: rest =>
    if k' == k then (k, v) :: rest else (k', v') :: mapInsert k v rest

/-- `networkingv1.IngressServiceBackend` (only the `Name` field is read by
the extractor). -/
structure IngressServiceBackend where
  Name : String
deriving Repr, DecidableEq

/-- `networkingv1.HTTPIngressPath`: `Path`, the `*PathType` pointer
(`Option`, since the Go field is a pointer that may be nil), and the
`Backend.Service` pointer. -/
structure HTTPIngressPath where
  Path : String
  PathType : Option String
  Service : Option IngressServiceBackend
deriving Repr, DecidableEq

/-- `networkingv1.IngressRule`: `Host` and the `*HTTPIngressRuleValue`
pointer, flattened to its `Paths` list (`none` models a nil `rule.HTTP`). -/
structure IngressRule where
  Host : String
  HTTP : Option (List HTTPIngressPath)
deriving Repr, DecidableEq

/-- `networkingv1.IngressTLS` (the extractor only tests whether the TLS
list is non-empty). -/
structure IngressTLS where
  Hosts : List String
  SecretName : String
deriving Repr, DecidableEq

/-- The parts of `networkingv1.Ingress` read by `extractEndpointsFromIngress`.
`Namespace`/`Name` come from the object meta; `TLS` and `Rules` from the
spec. -/
structure Ingress where
  Namespace : String
  Name : String
  Annotations : List (String × String)
  Labels : List (String × String)
  TLS : List IngressTLS
  Rules : List IngressRule
deriving Repr, DecidableEq

/-- `discovery.Endpoint`. -/
structure Endpoint where
  Namespace : String
  ServiceName : String
  IngressName : String
  URL : String
  Path : String
  Labels : List (String × String)
  Annotations : List (String × String)
deriving Repr, DecidableEq

/-- The inner loop of `extractEndpointsFromIngress` over `rule.HTTP.Paths`
(part_001 lines 144-181). The result is `none` when the Go code panics:
`pathType := string(*path.PathType)` dereferences the `PathType` pointer
with no nil check, so a nil `PathType` aborts the whole extraction. -/
def extractPaths (protocol host ns nm : String)
    (annotations labels : List (String × String)) :
    List HTTPIngressPath → Option (List Endpoint)
  | [] => some []
  | path :: rest =>
    match path.PathType with
    | none => none
    | some pt =>
      let _pathType := if pt == "" then "Prefix" else pt
      let routePath := if path.Path == "" then "/" else path.Path
      match path.Service with
      | none => extractPaths protocol host ns nm annotations labels rest
      | some svc =>
        let serviceName := svc.Name
        let url := protocol ++ "://" ++ host
        let healthEndpoint :=
          match mapLookup ("health.monitor/path." ++ serviceName) annotations with
          | some pathSpecificHealth => pathSpecificHealth
          | none =>
            match mapLookup "health.monitor/endpoint" annotations with
            | some generalHealth => generalHealth
            | none => routePath
        (extractPaths protocol host ns nm annotations labels rest).map
          (fun eps =>
            { Namespace := ns, ServiceName := serviceName, IngressName := nm,
              URL := url, Path := healthEndpoint,
              Labels := labels, Annotations := annotations } :: eps)

/-- The outer loop of `extractEndpointsFromIngress` over `ingress.Spec.Rules`
(part_001 lines 132-182): rules with an empty host or a nil `HTTP` section
are skipped. -/
def extractRules (protocol ns nm : String)
    (annotations labels : List (String × String)) :
    List IngressRule → Option (List Endpoint)
  | [] => some []
  | rule :: rest =>
    if rule.Host == "" then extractRules protocol ns nm annotations labels rest
    else
      match rule.HTTP with
      | none => extractRules protocol ns nm annotations labels rest
      | some paths =>
        match extractPaths protocol rule.Host ns nm annotations labels paths with
        | none => none
        | some eps =>
          (extractRules protocol ns nm annotations labels rest).map
            (fun eps' => eps ++ eps')

/-- `extractEndpointsFromIngress` (part_001 lines 116-185). `none` models a
runtime panic (nil `PathType` dereference); `some eps` is the returned
endpoint slice. -/
def extractEndpointsFromIngress (ingress : Ingress) : Option (List Endpoint) :=
  let tls := decide (ingress.TLS.length > 0)
  let protocol := if tls then "https" else "http"
  extractRules protocol ingress.Namespace ingress.Name
    ingress.Annotations ingress.Labels ingress.Rules

/-- `discovery.Client` (part_001 lines 17-21); the Kubernetes clientset is
an external collaborator and is not modelled. -/
structure Client where
  namespaceMode : String
  namespaces : List String
deriving Repr, DecidableEq

/-- `shouldProcessNamespace` (part_001 lines 41-59). The Go loop over
`c.namespaces` computes exactly list membership, written here with
`List.contains`. -/
def shouldProcessNamespace (c : Client) (ns : String) : Bool :=
  if c.namespaces.length == 0 then
    c.namespaceMode == "allow"
  else
    let found := c.namespaces.contains ns
    (c.namespaceMode == "allow" && found) || (c.namespaceMode == "deny" && !found)

/-- `SetNamespaceFilter` (part_001 lines 35-38): replaces the client's
filtering mode and namespace list. -/
def SetNamespaceFilter (c : Client) (mode : String) (namespaces : List String) : Client :=
  { c with namespaceMode := mode, namespaces := namespaces }

/-- `endpointKey` (monitor.go lines 56-62):
`fmt.Sprintf("%s/%s/%s%s", ns, ingressName, url, path)`. -/
def endpointKey (endpoint : Endpoint) : String :=
  endpoint.Namespace ++ "/" ++ endpoint.IngressName ++ "/" ++
    endpoint.URL ++ endpoint.Path

/-- Default extra success codes of `NewMonitor` (monitor.go line 73). -/
def defaultSuccessStatusCodes : List Int := [401, 403, 404]

/-- `checkStatus` (monitor.go lines 166-177). The Go for/break loop sets
`success` to true exactly when the status code occurs in
`successStatusCodes`. -/
def checkStatus (successStatusCodes : List Int) (statusCode : Int) : Bool :=
  let success := decide (statusCode ≥ 200) && decide (statusCode < 300)
  success || successStatusCodes.contains statusCode

/-- The mutable part of `Monitor` (monitor.go lines 27-28): the two maps
guarded by `m.mu`. Every access in the source takes the mutex, so the
concurrent writes are serialized; we model the table as the value those
serialized updates produce. -/
structure MonitorState where
  endpointStatus : List (String × Bool)
  endpoints : List (String × Endpoint)
deriving Repr, DecidableEq

/-- Kind of a metric report: `requestCounter.Add(ctx, 1, ...)` or
`responseTimeHistogram.Record(ctx, duration, ...)`. -/
inductive ObsKind where
  | counterAdd
  | durationRecord
deriving Repr, DecidableEq

/-- One metric report with its attribute set (the duration value itself is
wall-clock time and is not modelled). -/
structure Observation where
  kind : ObsKind
  attrs : List (String × String)
deriving Repr, DecidableEq

/-- Outcome of the HTTP round-trip in `checkEndpoint`, made an explicit
input: `http.NewRequestWithContext` failed, `httpClient.Do` returned an
error (no response), or a response with a status code was obtained. -/
inductive CheckOutcome where
  | requestError
  | transportError
  | response (statusCode : Int)
deriving Repr, DecidableEq

/-- The common attributes built in `checkEndpoint` (monitor.go lines
203-213): namespace/service/ingress/url plus the endpoint labels. -/
def commonAttrs (endpoint : Endpoint) (fullURL : String) : List (String × String) :=
  [("namespace", endpoint.Namespace), ("service", endpoint.ServiceName),
   ("ingress", endpoint.IngressName), ("url", fullURL)] ++ endpoint.Labels

/-- `checkEndpoint` (monitor.go lines 180-260) as a state transition on the
status table, returning the metric reports it makes. The Go function
returns nothing and swallows every failure; here every outcome is total.
Note the early `return` on a request-creation error leaves the endpoints
map updated but records no status and no metrics. -/
def checkEndpoint (successStatusCodes : List Int) (endpoint : Endpoint)
    (outcome : CheckOutcome) (m : MonitorState) :
    MonitorState × List Observation :=
  let fullURL := endpoint.URL ++ endpoint.Path
  let key := endpointKey endpoint
  let m := { m with endpoints := mapInsert key endpoint m.endpoints }
  match outcome with
  | .requestError => (m, [])
  | .transportError =>
    let attrs := commonAttrs endpoint fullURL
    let statusAttrs := attrs ++ [("status", ""), ("success", "false")]
    ({ m with endpointStatus := mapInsert key false m.endpointStatus },
     [⟨.counterAdd, statusAttrs⟩, ⟨.durationRecord, statusAttrs⟩])
  | .response statusCode =>
    let isUp := checkStatus successStatusCodes statusCode
    let attrs := commonAttrs endpoint fullURL
    let statusAttrs := attrs ++
      [("status", toString statusCode),
       ("success", if isUp then "true" else "false")]
    ({ m with endpointStatus := mapInsert key isUp m.endpointStatus },
     [⟨.counterAdd, statusAttrs⟩, ⟨.durationRecord, statusAttrs⟩])

/-- The checks spawned by one cycle, serialized in spawn order (the mutex
in the source serializes the map updates; any interleaving is a
permutation of these updates and the claims below are per-key). -/
def runChecks (successStatusCodes : List Int)
    (outcome : Endpoint → CheckOutcome) (m : MonitorState) :
    List Endpoint → MonitorState × List Observation
  | [] => (m, [])
  | endpoint :: rest =>
    let r := checkEndpoint successStatusCodes endpoint (outcome endpoint) m
    let r' := runChecks successStatusCodes outcome r.1 rest
    (r'.1, r.2 ++ r'.2)

/-- `checkEndpoints` (monitor.go lines 154-164), one monitoring cycle. The
discovery result is an explicit input (`Except` models the Go
`([]Endpoint, error)` pair). Returns the list of endpoints for which a
check goroutine was launched, the resulting status table, and the metric
reports. On a discovery error the function logs and returns: no check is
launched and the table is untouched. -/
def checkEndpoints (successStatusCodes : List Int)
    (discoverResult : Except String (List Endpoint))
    (outcome : Endpoint → CheckOutcome) (m : MonitorState) :
    List Endpoint × MonitorState × List Observation :=
  match discoverResult with
  | .error _ => ([], m, [])
  | .ok endpoints =>
    let r := runChecks successStatusCodes outcome m endpoints
    (endpoints, r.1, r.2)

/-- The spec's §4.1 step-3 health-path resolution, stated from the spec's
words (not from the code) for comparison with the extractor: the
per-service annotation first, then the declaration-wide annotation, else
the rule's own path with `/` substituted when it is empty. -/
def specHealthPath (annotations : List (String × String))
    (serviceName routePath : String) : String :=
  match mapLookup ("health.monitor/path." ++ serviceName) annotations with
  | some v => v
  | none =>
    match mapLookup "health.monitor/endpoint" annotations with
    | some v => v
    | none => if routePath == "" then "/" else routePath

/-- Concrete fixture: the spec's §8 precedence scenario — one declaration
carrying both the declaration-wide and a per-service health annotation. -/
def ing4 : Ingress :=
  { Namespace := "default", Name := "ing1",
    Annotations := [("health.monitor/endpoint", "/health"),
                    ("health.monitor/path.myservice", "/svc-health")],
    Labels := [], TLS := [],
    Rules := [{ Host := "a.com",
                HTTP := some [{ Path := "/x", PathType := some "Prefix",
                                Service := some ⟨"myservice"⟩ },
                              { Path := "/y", PathType := some "Prefix",
                                Service := some ⟨"other"⟩ }] }] }

/-- The endpoint `extractEndpointsFromIngress` produces for `myservice`
in `ing4`. -/
def ep4a : Endpoint :=
  { Namespace := "default", ServiceName := "myservice", IngressName := "ing1",
    URL := "http://a.com", Path := "/svc-health", Labels := [],
    Annotations := [("health.monitor/endpoint", "/health"),
                    ("health.monitor/path.myservice", "/svc-health")] }

/-- The endpoint `extractEndpointsFromIngress` produces for `other`
in `ing4`. -/
def ep4b : Endpoint :=
  { Namespace := "default", ServiceName := "other", IngressName := "ing1",
    URL := "http://a.com", Path := "/health", Labels := [],
    Annotations := [("health.monitor/endpoint", "/health"),
                    ("health.monitor/path.myservice", "/svc-health")] }

/-- Concrete fixture: a declaration with a TLS entry whose host list does
not name the rule's host. -/
def ing5 : Ingress :=
  { Namespace := "default", Name := "ing2", Annotations := [], Labels := [],
    TLS := [⟨["tls.com"], "secret"⟩],
    Rules := [{ Host := "a.com",
                HTTP := some [{ Path := "", PathType := some "Prefix",
                                Service := some ⟨"svc"⟩ }] }] }

/-- The endpoint `extractEndpointsFromIngress` produces for `ing5`. -/
def ep5 : Endpoint :=
  { Namespace := "default", ServiceName := "svc", IngressName := "ing2",
    URL := "https://a.com", Path := "/", Labels := [], Annotations := [] }

/-- Concrete fixture endpoint for the monitoring-side witnesses. -/
def epA : Endpoint :=
  { Namespace := "default", ServiceName := "svc", IngressName := "ing1",
    URL := "http://a.com", Path := "/", Labels := [], Annotations := [] }

/-- Concrete fixture status table already holding a key `"k"`. -/
def st1 : MonitorState :=
  { endpointStatus := [("k", true)], endpoints := [("k", epA)] }

theorem mapLookup_mapInsert (k k' : String) (v : α) (m : List (String × α)) :
    mapLookup k (mapInsert k' v m) = if k' = k then some v else mapLookup k m := by
  induction m with
  | nil => simp [mapInsert, mapLookup, beq_iff_eq]
  | cons hd tl ih =>
    obtain ⟨k'', v''⟩ := hd
    by_cases h1 : k'' = k'
    · subst h1
      by_cases h2 : k'' = k <;>
        simp [mapInsert, mapLookup, beq_iff_eq, h2]
    · by_cases h2 : k'' = k
      · subst h2
        have : ¬ k' = k'' := fun h => h1 h.symm
        simp [mapInsert, mapLookup, beq_iff_eq, h1, this]
      · simp [mapInsert, mapLookup, beq_iff_eq, h1, h2, ih]

/-- Every endpoint produced by the path loop comes from a path entry with
a bound backend service, and carries the loop's namespace, ingress name,
URL and the spec-resolved health path. -/
theorem mem_extractPaths {protocol host ns nm : String}
    {annotations labels : List (String × String)}
    {ps : List HTTPIngressPath} {eps : List Endpoint} {e : Endpoint}
    (h1 : extractPaths protocol host ns nm annotations labels ps = some eps)
    (h2 : e ∈ eps) :
    ∃ p ∈ ps, p.Service = some ⟨e.ServiceName⟩ ∧
      e.Namespace = ns ∧ e.IngressName = nm ∧
      e.URL = protocol ++ "://" ++ host ∧
      e.Annotations = annotations ∧ e.Labels = labels ∧
      e.Path = specHealthPath annotations e.ServiceName p.Path := by
  induction ps generalizing eps with
  | nil =>
    simp only [extractPaths, Option.some.injEq] at h1
    subst h1; cases h2
  | cons p rest ih =>
    cases hpt : p.PathType with
    | none => simp [extractPaths, hpt] at h1
    | some pt =>
      cases hsvc : p.Service with
      | none =>
        simp only [extractPaths, hpt, hsvc] at h1
        obtain ⟨p', hp', hrest⟩ := ih h1 h2
        exact ⟨p', List.mem_cons_of_mem _ hp', hrest⟩
      | some svc =>
        simp only [extractPaths, hpt, hsvc, Option.map_eq_some'] at h1
        obtain ⟨eps', hrest, heps⟩ := h1
        subst heps
        rcases List.mem_cons.mp h2 with he | he
        · subst he
          refine ⟨p, List.mem_cons_self _ _, ?_⟩
          refine ⟨by rw [hsvc], rfl, rfl, rfl, rfl, rfl, ?_⟩
          simp only [specHealthPath]
        · obtain ⟨p', hp', hrest'⟩ := ih hrest he
          exact ⟨p', List.mem_cons_of_mem _ hp', hrest'⟩

/-- Every endpoint produced by the rule loop comes from a rule with a
non-empty host and a present HTTP section. -/
theorem mem_extractRules {protocol ns nm : String}
    {annotations labels : List (String × String)}
    {rules : List IngressRule} {eps : List Endpoint} {e : Endpoint}
    (h1 : extractRules protocol ns nm annotations labels rules = some eps)
    (h2 : e ∈ eps) :
    ∃ rule ∈ rules, rule.Host ≠ "" ∧ ∃ ps, rule.HTTP = some ps ∧
      ∃ p ∈ ps, p.Service = some ⟨e.ServiceName⟩ ∧
        e.Namespace = ns ∧ e.IngressName = nm ∧
        e.URL = protocol ++ "://" ++ rule.Host ∧
        e.Annotations = annotations ∧ e.Labels = labels ∧
        e.Path = specHealthPath annotations e.ServiceName p.Path := by
  induction rules generalizing eps with
  | nil =>
    simp only [extractRules, Option.some.injEq] at h1
    subst h1; cases h2
  | cons rule rest ih =>
    by_cases hh : rule.Host = ""
    · have hb : (rule.Host == "") = true := beq_iff_eq.mpr hh
      simp only [extractRules, hb, if_pos rfl] at h1
      obtain ⟨r', hr', hrest⟩ := ih (by simpa [hb] using h1) h2
      exact ⟨r', List.mem_cons_of_mem _ hr', hrest⟩
    · have hb : (rule.Host == "") = false := by simp [hh]
      cases hhttp : rule.HTTP with
      | none =>
        simp only [extractRules, hb, Bool.false_eq_true, if_false, hhttp] at h1
        obtain ⟨r', hr', hrest⟩ := ih h1 h2
        exact ⟨r', List.mem_cons_of_mem _ hr', hrest⟩
      | some ps =>
        simp only [extractRules, hb, Bool.false_eq_true, if_false, hhttp] at h1
        cases hps : extractPaths protocol rule.Host ns nm annotations labels ps with
        | none => simp [hps] at h1
        | some eps0 =>
          simp only [hps, Option.map_eq_some'] at h1
          obtain ⟨eps', hrest, heps⟩ := h1
          subst heps
          rcases List.mem_append.mp h2 with he | he
          · obtain ⟨p, hp, hfields⟩ := mem_extractPaths hps he
            exact ⟨rule, List.mem_cons_self _ _, hh, ps, hhttp, p, hp, hfields⟩
          · obtain ⟨r', hr', hrest'⟩ := ih hrest he
            exact ⟨r', List.mem_cons_of_mem _ hr', hrest'⟩

/-- A single `checkEndpoint` call never removes a key from either map. -/
theorem checkEndpoint_preserves_keys (codes : List Int) (endpoint : Endpoint)
    (outcome : CheckOutcome) (m : MonitorState) (k : String) :
    ((mapLookup k m.endpoints).isSome = true →
      (mapLookup k (checkEndpoint codes endpoint outcome m).1.endpoints).isSome = true) ∧
    ((mapLookup k m.endpointStatus).isSome = true →
      (mapLookup k (checkEndpoint codes endpoint outcome m).1.endpointStatus).isSome = true) := by
  cases outcome <;>
    simp only [checkEndpoint, mapLookup_mapInsert] <;>
    constructor <;> intro h <;> (try split) <;> simp_all

/-- `runChecks` never removes a key from either map. -/
theorem runChecks_preserves_keys (codes : List Int)
    (outcome : Endpoint → CheckOutcome) (m : MonitorState)
    (eps : List Endpoint) (k : String) :
    ((mapLookup k m.endpoints).isSome = true →
      (mapLookup k (runChecks codes outcome m eps).1.endpoints).isSome = true) ∧
    ((mapLookup k m.endpointStatus).isSome = true →
      (mapLookup k (runChecks codes outcome m eps).1.endpointStatus).isSome = true) := by
  induction eps generalizing m with
  | nil => exact ⟨id, id⟩
  | cons ep rest ih =>
    have h1 := checkEndpoint_preserves_keys codes ep (outcome ep) m k
    have h2 := ih (checkEndpoint codes ep (outcome ep) m).1
    exact ⟨fun h => h2.1 (h1.1 h), fun h => h2.2 (h1.2 h)⟩

/-- Claim C1 (code bug): the explicitly handled malformed cases — empty
host, nil HTTP section, nil backend service — do degrade to zero
endpoints, but a path entry whose `PathType` pointer is nil makes
`extractEndpointsFromIngress` dereference nil (`string(*path.PathType)`,
part_001 line 145) and panic, modelled here as `none`: extraction does
not always return an endpoint sequence. -/
theorem extraction_panics_on_nil_pathType :
    extractEndpointsFromIngress
      { Namespace := "default", Name := "ing1", Annotations := [], Labels := [],
        TLS := [],
        Rules := [{ Host := "", HTTP := some [{ Path := "/", PathType := some "Prefix",
                                                Service := some ⟨"svc"⟩ }] },
                  { Host := "b.com", HTTP := none },
                  { Host := "c.com", HTTP := some [{ Path := "/", PathType := some "Prefix",
                                                     Service := none }] }] }
      = some [] ∧
    extractEndpointsFromIngress
      { Namespace := "default", Name := "ing1", Annotations := [], Labels := [],
        TLS := [],
        Rules := [{ Host := "a.com", HTTP := some [{ Path := "/", PathType := none,
                                                     Service := some ⟨"svc"⟩ }] }] }
      = none := by
  exact ⟨rfl, rfl⟩

/-- Claim C2: `checkStatus c` is true iff `200 ≤ c < 300` or `c` is in the
configured extra success codes; with the default extras {401,403,404} the
five quoted sample values hold. -/
theorem checkStatus_spec :
    (∀ (codes : List Int) (c : Int),
      checkStatus codes c = true ↔ (200 ≤ c ∧ c < 300) ∨ c ∈ codes) ∧
    checkStatus defaultSuccessStatusCodes 200 = true ∧
    checkStatus defaultSuccessStatusCodes 299 = true ∧
    checkStatus defaultSuccessStatusCodes 300 = false ∧
    checkStatus defaultSuccessStatusCodes 401 = true ∧
    checkStatus defaultSuccessStatusCodes 500 = false := by
  refine ⟨fun codes c => ?_, by decide, by decide, by decide, by decide, by decide⟩
  simp [checkStatus, List.elem_iff]

/-- Claim C3: the full six-case truth table of `shouldProcessNamespace`
for the two recognized modes: an empty list allows everything in allow
mode and nothing in deny mode; a non-empty list means membership in allow
mode and non-membership in deny mode. -/
theorem shouldProcessNamespace_truth_table (mode : String) (nss : List String)
    (ns : String) (h : mode = "allow" ∨ mode = "deny") :
    (shouldProcessNamespace ⟨mode, nss⟩ ns = true ↔
      (nss = [] ∧ mode = "allow") ∨
      (nss ≠ [] ∧ ((mode = "allow" ∧ ns ∈ nss) ∨ (mode = "deny" ∧ ns ∉ nss)))) := by
  have had : ¬ ("allow" : String) = "deny" := by decide
  rcases h with h | h <;> subst h <;> cases nss <;>
    simp [shouldProcessNamespace, List.elem_iff, had, Ne.symm had]

theorem shouldProcessNamespace_truth_table_witness :
    (("allow" : String) = "allow" ∨ ("allow" : String) = "deny") ∧
    (shouldProcessNamespace ⟨"allow", ["default"]⟩ "default" = true ↔
      ((["default"] : List String) = [] ∧ ("allow" : String) = "allow") ∨
      ((["default"] : List String) ≠ [] ∧
        ((("allow" : String) = "allow" ∧ "default" ∈ (["default"] : List String)) ∨
         (("allow" : String) = "deny" ∧ "default" ∉ (["default"] : List String))))) :=
  ⟨Or.inl rfl,
   shouldProcessNamespace_truth_table "allow" ["default"] "default" (Or.inl rfl)⟩

/-- Claim C4: every extracted endpoint's health path follows the
first-match-wins precedence of `specHealthPath`: per-service annotation,
then declaration-wide annotation, then the owning path rule's own path
with `/` substituted when that path is empty. -/
theorem extracted_path_resolution (ing : Ingress) (eps : List Endpoint)
    (e : Endpoint) (h1 : extractEndpointsFromIngress ing = some eps)
    (h2 : e ∈ eps) :
    ∃ rule ∈ ing.Rules, ∃ ps, rule.HTTP = some ps ∧
      ∃ p ∈ ps, p.Service = some ⟨e.ServiceName⟩ ∧
        e.Path = specHealthPath ing.Annotations e.ServiceName p.Path := by
  obtain ⟨rule, hrule, _, ps, hps, p, hp, hsvc, _, _, _, hann, _, hpath⟩ :=
    mem_extractRules (by simpa [extractEndpointsFromIngress] using h1) h2
  exact ⟨rule, hrule, ps, hps, p, hp, hsvc, hpath⟩

/-- Claim C5: TLS presence is declaration-wide — with a non-empty TLS
section every extracted URL begins with `https://`, with an empty one
every extracted URL begins with `http://`, and in both cases the URL is
exactly protocol ++ "://" ++ host of the owning rule. -/
theorem extracted_url_protocol (ing : Ingress) (eps : List Endpoint)
    (e : Endpoint) (h1 : extractEndpointsFromIngress ing = some eps)
    (h2 : e ∈ eps) :
    (ing.TLS ≠ [] → ∃ rest, e.URL = "https://" ++ rest) ∧
    (ing.TLS = [] → ∃ rest, e.URL = "http://" ++ rest) ∧
    ∃ rule ∈ ing.Rules,
      e.URL = (if ing.TLS = [] then "http" else "https") ++ "://" ++ rule.Host := by
  obtain ⟨rule, hrule, _, _, _, _, _, _, _, _, hurl, _, _, _⟩ :=
    mem_extractRules (by simpa [extractEndpointsFromIngress] using h1) h2
  cases htls : ing.TLS with
  | nil =>
    refine ⟨fun hc => absurd rfl hc, fun _ => ⟨rule.Host, ?_⟩, rule, hrule, ?_⟩
    · rw [hurl]; simp [htls]
    · rw [hurl]; simp [htls]
  | cons t ts =>
    refine ⟨fun _ => ⟨rule.Host, ?_⟩, fun hc => by simp [htls] at hc, rule, hrule, ?_⟩
    · rw [hurl]; simp [htls]
    · rw [hurl]; simp [htls]

theorem extracted_path_resolution_witness :
    extractEndpointsFromIngress ing4 = some [ep4a, ep4b] ∧ ep4a ∈ [ep4a, ep4b] ∧
    ∃ rule ∈ ing4.Rules, ∃ ps, rule.HTTP = some ps ∧
      ∃ p ∈ ps, p.Service = some ⟨ep4a.ServiceName⟩ ∧
        ep4a.Path = specHealthPath ing4.Annotations ep4a.ServiceName p.Path :=
  ⟨by decide, by decide,
   extracted_path_resolution ing4 [ep4a, ep4b] ep4a (by decide) (by decide)⟩

theorem extracted_url_protocol_witness :
    extractEndpointsFromIngress ing5 = some [ep5] ∧ ep5 ∈ [ep5] ∧
    ing5.TLS ≠ [] ∧ (∃ rest, ep5.URL = "https://" ++ rest) ∧
    ∃ rule ∈ ing5.Rules,
      ep5.URL = (if ing5.TLS = [] then "http" else "https") ++ "://" ++ rule.Host :=
  ⟨by decide, by decide, by decide,
   (extracted_url_protocol ing5 [ep5] ep5 (by decide) (by decide)).1 (by decide),
   (extracted_url_protocol ing5 [ep5] ep5 (by decide) (by decide)).2.2⟩

/-- Claim C6: when discovery fails, `checkEndpoints` logs and returns: no
check is launched, both maps of the status table are unchanged and no
metric report is made. The function is total — the error is never fatal,
the monitor just waits for the next tick. -/
theorem discovery_error_aborts_cycle (codes : List Int) (msg : String)
    (outcome : Endpoint → CheckOutcome) (m : MonitorState) :
    (checkEndpoints codes (.error msg) outcome m).1 = [] ∧
    (checkEndpoints codes (.error msg) outcome m).2.1.endpoints = m.endpoints ∧
    (checkEndpoints codes (.error msg) outcome m).2.1.endpointStatus = m.endpointStatus ∧
    (checkEndpoints codes (.error msg) outcome m).2.2 = [] :=
  ⟨rfl, rfl, rfl, rfl⟩

/-- Claim C7: a transport failure (no response) records `Down` under the
endpoint's composite key and reports exactly one counter increment and
one duration observation, both tagged `status=""`, `success="false"`;
`checkEndpoint` is total, so the failure never propagates to the caller. -/
theorem transport_failure_marks_down (codes : List Int) (endpoint : Endpoint)
    (m : MonitorState) :
    mapLookup (endpointKey endpoint)
      (checkEndpoint codes endpoint .transportError m).1.endpointStatus = some false ∧
    ((checkEndpoint codes endpoint .transportError m).2.map Observation.kind =
      [ObsKind.counterAdd, ObsKind.durationRecord]) ∧
    ∀ o ∈ (checkEndpoint codes endpoint .transportError m).2,
      ("status", "") ∈ o.attrs ∧ ("success", "false") ∈ o.attrs := by
  refine ⟨?_, rfl, ?_⟩
  · simp [checkEndpoint, mapLookup_mapInsert]
  · intro o ho
    simp only [checkEndpoint, List.mem_cons, List.not_mem_nil, or_false] at ho
    rcases ho with ho | ho <;> subst ho <;> simp [List.mem_append]

theorem transport_failure_marks_down_witness :
    mapLookup (endpointKey epA)
      (checkEndpoint defaultSuccessStatusCodes epA .transportError
        ⟨[], []⟩).1.endpointStatus = some false ∧
    (("status", "") ∈
        (Observation.mk ObsKind.counterAdd
          (commonAttrs epA "http://a.com/" ++
            [("status", ""), ("success", "false")])).attrs ∧
      ("success", "false") ∈
        (Observation.mk ObsKind.counterAdd
          (commonAttrs epA "http://a.com/" ++
            [("status", ""), ("success", "false")])).attrs) :=
  ⟨(transport_failure_marks_down defaultSuccessStatusCodes epA ⟨[], []⟩).1,
   (transport_failure_marks_down defaultSuccessStatusCodes epA ⟨[], []⟩).2.2 _
     (by decide)⟩

/-- Claim C8: no Monitor operation ever removes a key from the endpoints
map or the status map — a whole cycle (`checkEndpoints`, composing every
`checkEndpoint` it spawns) only inserts or overwrites entries, so an
endpoint that disappears from discovery keeps its last status, and a key
with a status entry keeps one thereafter. -/
theorem status_table_never_evicts (codes : List Int)
    (disc : Except String (List Endpoint)) (outcome : Endpoint → CheckOutcome)
    (m : MonitorState) (k : String) :
    ((mapLookup k m.endpoints).isSome = true →
      (mapLookup k (checkEndpoints codes disc outcome m).2.1.endpoints).isSome = true) ∧
    ((mapLookup k m.endpointStatus).isSome = true →
      (mapLookup k (checkEndpoints codes disc outcome m).2.1.endpointStatus).isSome = true) := by
  cases disc with
  | error msg => exact ⟨id, id⟩
  | ok eps => exact runChecks_preserves_keys codes outcome m eps k

theorem status_table_never_evicts_witness :
    ((mapLookup "k" st1.endpoints).isSome = true ∧
      (mapLookup "k" st1.endpointStatus).isSome = true) ∧
    (mapLookup "k" (checkEndpoints defaultSuccessStatusCodes (.ok [epA])
        (fun _ => .transportError) st1).2.1.endpoints).isSome = true ∧
    (mapLookup "k" (checkEndpoints defaultSuccessStatusCodes (.ok [epA])
        (fun _ => .transportError) st1).2.1.endpointStatus).isSome = true :=
  ⟨⟨by decide, by decide⟩,
   (status_table_never_evicts defaultSuccessStatusCodes (.ok [epA])
      (fun _ => .transportError) st1 "k").1 (by decide),
   (status_table_never_evicts defaultSuccessStatusCodes (.ok [epA])
      (fun _ => .transportError) st1 "k").2 (by decide)⟩

/-- Claim C9: the composite key is exactly
namespace ++ "/" ++ ingressName ++ "/" ++ url ++ path, matches the quoted
example, and depends on no other Endpoint field. -/
theorem endpointKey_spec :
    (∀ (ns svc nm url p : String) (labels anns : List (String × String)),
      endpointKey ⟨ns, svc, nm, url, p, labels, anns⟩ =
        ns ++ "/" ++ nm ++ "/" ++ url ++ p) ∧
    endpointKey ⟨"default", "svc", "ingress", "http://example.com", "/health", [], []⟩ =
      "default/ingress/http://example.com/health" ∧
    (∀ (ns nm url p s₁ s₂ : String) (l₁ l₂ a₁ a₂ : List (String × String)),
      endpointKey ⟨ns, s₁, nm, url, p, l₁, a₁⟩ =
        endpointKey ⟨ns, s₂, nm, url, p, l₂, a₂⟩) :=
  ⟨fun _ _ _ _ _ _ _ => rfl, by decide, fun _ _ _ _ _ _ _ _ _ _ => rfl⟩

/-- Claim C10: a namespace-filter mode that is neither "allow" nor "deny"
(for instance the empty string) makes `shouldProcessNamespace` reject
every namespace, whatever the namespace list. -/
theorem unknown_mode_filters_all (c : Client) (mode : String)
    (nss : List String) (ns : String)
    (h1 : mode ≠ "allow") (h2 : mode ≠ "deny") :
    shouldProcessNamespace (SetNamespaceFilter c mode nss) ns = false := by
  have b1 : (mode == "allow") = false := by simp [h1]
  have b2 : (mode == "deny") = false := by simp [h2]
  cases nss <;> simp [shouldProcessNamespace, SetNamespaceFilter, b1, b2]

theorem unknown_mode_filters_all_witness :
    ("" : String) ≠ "allow" ∧ ("" : String) ≠ "deny" ∧
    shouldProcessNamespace (SetNamespaceFilter ⟨"allow", []⟩ "" ["x"]) "x" = false ∧
    shouldProcessNamespace (SetNamespaceFilter ⟨"allow", []⟩ "" []) "y" = false :=
  ⟨by decide, by decide,
   unknown_mode_filters_all ⟨"allow", []⟩ "" ["x"] "x" (by decide) (by decide),
   unknown_mode_filters_all ⟨"allow", []⟩ "" [] "y" (by decide) (by decide)⟩

end HttpMonitor
